import Mathlib

/-!
Shallow embedding of the meteorological data-acquisition pipeline of
`megha_netra_advanced.py` (classes `Downloader`, `Validator`, `Pipeline`,
`Optimizer`), together with theorems settling the specification claims.

Files on disk are modelled as association lists from path strings to file
contents; Python dictionaries (the checksum cache) are modelled the same way,
with update-in-place semantics matching `dict` assignment.
-/

/-- Association-list lookup, modelling `d.get(k)` / `os.path.exists` checks. -/
def lookupA {α : Type} (k : String) : List (String × α) → Option α
  | [] => none
  | (k2, v) :: rest => if k2 = k then some v else lookupA k rest

/-- Association-list write, modelling `d[k] = v` (update in place, else append). -/
def insertA {α : Type} (k : String) (v : α) : List (String × α) → List (String × α)
  | [] => [(k, v)]
  | (k2, v2) :: rest => if k2 = k then (k, v) :: rest else (k2, v2) :: insertA k v rest

/-- Association-list delete, modelling `os.remove` / `del d[k]` (no-op if absent). -/
def eraseA {α : Type} (k : String) : List (String × α) → List (String × α)
  | [] => []
  | (k2, v2) :: rest => if k2 = k then eraseA k rest else (k2, v2) :: eraseA k rest

theorem lookupA_insertA_self {α : Type} (k : String) (v : α) (l : List (String × α)) :
    lookupA k (insertA k v l) = some v := by
  induction l with
  | nil => simp [insertA, lookupA]
  | cons hd tl ih =>
    by_cases h : hd.1 = k
    · simp [insertA, lookupA, h]
    · simp [insertA, lookupA, h, ih]

theorem lookupA_insertA_ne {α : Type} (k k2 : String) (v : α) (l : List (String × α))
    (h : k2 ≠ k) : lookupA k2 (insertA k v l) = lookupA k2 l := by
  induction l with
  | nil =>
    simp only [insertA, lookupA]
    rw [if_neg (fun hk : k = k2 => h hk.symm)]
  | cons hd tl ih =>
    by_cases hh : hd.1 = k
    · subst hh
      by_cases hk : (hd.1 : String) = k2
      · exact absurd hk h.symm
      · simp [insertA, lookupA, hk]
    · simp only [insertA, hh, if_false]
      by_cases hk2 : hd.1 = k2
      · simp [lookupA, hk2]
      · simp [lookupA, hk2, ih]

theorem lookupA_eraseA_self {α : Type} (k : String) (l : List (String × α)) :
    lookupA k (eraseA k l) = none := by
  induction l with
  | nil => simp [eraseA, lookupA]
  | cons hd tl ih =>
    by_cases h : hd.1 = k
    · simp [eraseA, h, ih]
    · simp [eraseA, lookupA, h, ih]

/-! ## Downloader (`Downloader.download`)

The Python method issues a HEAD probe for the content length, splits the byte
range `[0, file_size-1]` into ranges of `chunk_size = max(chunk_size,
file_size // num_threads)` bytes, fetches each range, writes all chunks to
`output_file + ".tmp"` in range order and atomically renames the temp file to
the final name.  Every exception inside the body is caught and converted to a
`False` return.  The `tenacity` retry decorator around the method retries only
when the wrapped callable raises. -/

/-- The byte ranges computed by
`[(i, min(i + chunk_size - 1, file_size - 1)) for i in range(0, file_size, chunk_size)]`. -/
def mkRanges (file_size chunk_size : Nat) : List (Nat × Nat) :=
  (List.range ((file_size + chunk_size - 1) / chunk_size)).map
    (fun k => (k * chunk_size, min (k * chunk_size + chunk_size - 1) (file_size - 1)))

/-- Environment of one `download` attempt: outcomes of the external operations.
`head = none` models the HEAD request raising; `some n` models a response whose
`content-length` parses to `n` (a missing header yields `0`).  `chunk s e = none`
models the ranged GET for `bytes=s-e` raising (including `raise_for_status`);
`some bytes` is the returned body.  `writeFailAfter = some j` models an I/O error
while writing the temp file after `j` chunks were written; `renameOk = false`
models `os.rename` raising. -/
structure DEnv where
  head : Option Nat
  chunk : Nat → Nat → Option (List Nat)
  writeFailAfter : Option Nat
  renameOk : Bool

/-- Byte-level filesystem: path → file bytes. -/
abbrev FSB := List (String × List Nat)

/-- Fetch every range; `none` as soon as any ranged request raises
(`list(executor.map(...))` re-raises the first chunk exception, before the
temp file is opened). -/
def fetchChunks (env : DEnv) : List (Nat × Nat) → Option (List (List Nat))
  | [] => some []
  | (s, e) :: rest =>
    match env.chunk s e with
    | none => none
    | some c =>
      match fetchChunks env rest with
      | none => none
      | some cs => some (c :: cs)

/-- One execution of the body of `Downloader.download` (the code inside the
`try`, with the `except` catching every exception and returning `False`).
`num_threads = 0` would make `file_size // num_threads` raise
`ZeroDivisionError`; `chunk_size = 0` (with a small file) would make
`range(0, file_size, 0)` raise `ValueError`; both land in the `except`. -/
def downloadOnce (env : DEnv) (output_file : String) (chunk_size num_threads : Nat)
    (fs : FSB) : Bool × FSB :=
  let temp_file := output_file ++ ".tmp"
  if num_threads = 0 then (false, fs)
  else
    match env.head with
    | none => (false, fs)
    | some file_size =>
      if file_size = 0 then (false, fs)
      else
        let cs := max chunk_size (file_size / num_threads)
        if cs = 0 then (false, fs)
        else
          match fetchChunks env (mkRanges file_size cs) with
          | none => (false, fs)
          | some chunks =>
            match env.writeFailAfter with
            | some j => (false, insertA temp_file ((chunks.take j).flatten) fs)
            | none =>
              let fs1 := insertA temp_file chunks.flatten fs
              if env.renameOk then
                (true, insertA output_file chunks.flatten (eraseA temp_file fs1))
              else (false, fs1)

/-- Model of `tenacity.retry(stop=stop_after_attempt(n), ...)`: run the wrapped callable,
starting at attempt number `i`, with `n` attempts allowed in total; retry only
when the callable raises.  Returns the final outcome and the number of the
attempt on which the loop stopped. -/
def tenacityRun {α : Type} (f : Nat → Except String α) (i : Nat) : Nat → Except String α × Nat
  | 0 => (f i, i)
  | 1 => (f i, i)
  | n + 2 =>
    match f i with
    | .ok a => (.ok a, i)
    | .error _ => tenacityRun f (i + 1) (n + 1)

/-- One attempt of the decorated `download`: the body catches every exception
internally, so the callable seen by `tenacity` never raises. -/
def downloadAttemptE (env : DEnv) (output_file : String) (chunk_size num_threads : Nat)
    (fs : FSB) : Except String (Bool × FSB) :=
  Except.ok (downloadOnce env output_file chunk_size num_threads fs)

/-- Model of `Downloader.download` as decorated:
`@retry(stop=stop_after_attempt(3), wait=wait_exponential(multiplier=1, min=4, max=10))`.
`envs i` is the environment of the `i`-th attempt (attempts are numbered from 1).
Returns the outcome together with the number of attempts actually performed. -/
def downloadRun (envs : Nat → DEnv) (output_file : String) (chunk_size num_threads : Nat)
    (fs : FSB) : Except String (Bool × FSB) × Nat :=
  tenacityRun (fun i => downloadAttemptE (envs i) output_file chunk_size num_threads fs) 1 3

/-- The value/state a caller of `Downloader.download` observes.  (The `.error`
branch is unreachable because the body never raises.) -/
def download (envs : Nat → DEnv) (output_file : String) (chunk_size num_threads : Nat)
    (fs : FSB) : Bool × FSB :=
  match (downloadRun envs output_file chunk_size num_threads fs).1 with
  | .ok r => r
  | .error _ => (false, fs)

/-! ### Arithmetic facts about the chunk ranges -/

theorem lt_div_succ_mul (a b : Nat) (h : 0 < b) : a < (a / b + 1) * b := by
  have h1 := Nat.div_add_mod a b
  have h2 := Nat.mod_lt a h
  have h3 : (a / b + 1) * b = b * (a / b) + b := by ring
  omega

/-- If `i` indexes one of the ranges then its start `i * cs` is inside the file. -/
theorem ceil_div_lt_mul (n cs i : Nat) (hcs : 1 ≤ cs) (hi : i < (n + cs - 1) / cs) :
    i * cs < n := by
  by_contra hc
  have hle : n ≤ i * cs := Nat.le_of_not_lt hc
  have hmul : (i + 1) * cs = i * cs + cs := Nat.succ_mul i cs
  have hlt : (n + cs - 1) / cs < i + 1 :=
    (Nat.div_lt_iff_lt_mul hcs).mpr (by omega)
  omega

/-- Every byte index below `n` lands in range number `b / cs`. -/
theorem div_lt_ceil (n cs b : Nat) (hcs : 1 ≤ cs) (hb : b < n) :
    b / cs < (n + cs - 1) / cs := by
  have h1 : b / cs * cs ≤ b := Nat.div_mul_le_self b cs
  have h2 : (b / cs + 1) * cs = b / cs * cs + cs := Nat.succ_mul _ cs
  have h3 : b / cs + 1 ≤ (n + cs - 1) / cs :=
    (Nat.le_div_iff_mul_le hcs).mpr (by omega)
  omega

theorem mkRanges_length (n cs : Nat) :
    (mkRanges n cs).length = (n + cs - 1) / cs := by
  simp [mkRanges]

theorem mkRanges_get (n cs i : Nat) (h : i < (mkRanges n cs).length) :
    (mkRanges n cs)[i] = (i * cs, min (i * cs + cs - 1) (n - 1)) := by
  simp [mkRanges]

/-- The ranges jointly have exactly `n` bytes. -/
theorem mkRanges_sum_len (cs : Nat) (hcs : 1 ≤ cs) :
    ∀ n, ((mkRanges n cs).map (fun r => r.2 + 1 - r.1)).sum = n := by
  intro n
  induction n using Nat.strong_induction_on with
  | _ n ih =>
    rcases Nat.eq_zero_or_pos n with hz | hpos
    · subst hz
      have hm : (cs - 1) / cs = 0 := Nat.div_eq_of_lt (by omega)
      simp [mkRanges, hm]
    · by_cases hle : n ≤ cs
      · have hm : (n + cs - 1) / cs = 1 := Nat.div_eq_of_lt_le (by omega) (by omega)
        have hmin : min (0 * cs + cs - 1) (n - 1) = n - 1 := by omega
        simp [mkRanges, hm, List.range_succ, hmin]
        omega
      · -- n > cs : the first range has cs bytes, the rest is mkRanges (n - cs) cs shifted
        have hlt : cs < n := Nat.lt_of_not_le hle
        have hm : (n + cs - 1) / cs = (n - cs + cs - 1) / cs + 1 := by
          have : n + cs - 1 = (n - cs + cs - 1) + cs := by omega
          rw [this, Nat.add_div_right _ hcs]
        have hih := ih (n - cs) (by omega)
        set m2 := (n - cs + cs - 1) / cs with hm2
        have hrange : List.range (m2 + 1) = 0 :: (List.range m2).map Nat.succ :=
          List.range_succ_eq_map m2
        have hcongr : ∀ k ∈ List.range m2,
            (fun k => min (Nat.succ k * cs + cs - 1) (n - 1) + 1 - Nat.succ k * cs) k
              = (fun k => min (k * cs + cs - 1) (n - cs - 1) + 1 - k * cs) k := by
          intro k hk
          have hk2 : k < m2 := List.mem_range.mp hk
          have hkcs : k * cs < n - cs := ceil_div_lt_mul (n - cs) cs k hcs (by omega)
          have hsucc : Nat.succ k * cs = k * cs + cs := Nat.succ_mul k cs
          simp only [hsucc]
          omega
        calc ((mkRanges n cs).map (fun r => r.2 + 1 - r.1)).sum
            = ((List.range (m2 + 1)).map
                (fun k => min (k * cs + cs - 1) (n - 1) + 1 - k * cs)).sum := by
              simp [mkRanges, hm, List.map_map]
              rfl
          _ = min (0 * cs + cs - 1) (n - 1) + 1 - 0 * cs
              + ((List.range m2).map
                  (fun k => min (Nat.succ k * cs + cs - 1) (n - 1) + 1 - Nat.succ k * cs)).sum := by
              rw [hrange]
              simp [List.map_map]
              rfl
          _ = cs + ((List.range m2).map
                  (fun k => min (k * cs + cs - 1) (n - cs - 1) + 1 - k * cs)).sum := by
              rw [List.map_congr_left hcongr]
              have : min (0 * cs + cs - 1) (n - 1) + 1 - 0 * cs = cs := by omega
              rw [this]
          _ = cs + (n - cs) := by
              have : ((mkRanges (n - cs) cs).map (fun r => r.2 + 1 - r.1)).sum
                  = ((List.range m2).map
                      (fun k => min (k * cs + cs - 1) (n - cs - 1) + 1 - k * cs)).sum := by
                simp [mkRanges, hm2, List.map_map]
                rfl
              omega
          _ = n := by omega

/-! ## Claim C2 and claim C6 theorems about the Downloader -/

/-- C2 (code bug): the `tenacity` decorator on `Downloader.download` is declared
with `stop_after_attempt(3)` and exponential backoff, but the `try/except` inside
the body converts every exception into a `False` return, so the callable that
`tenacity` observes never raises and no retry ever happens: for every
environment — in particular one whose transport raises on every attempt — the
operation is attempted exactly once, and the single attempt's outcome is
surfaced directly. -/
theorem download_retries_never_fire (envs : Nat → DEnv) (output_file : String)
    (chunk_size num_threads : Nat) (fs : FSB) :
    (downloadRun envs output_file chunk_size num_threads fs).2 = 1
    ∧ (downloadRun envs output_file chunk_size num_threads fs).1
        = Except.ok (downloadOnce (envs 1) output_file chunk_size num_threads fs) := by
  constructor <;> rfl

/-- C6 counterexample: for a 10-byte file with `chunk_size=8192`, `num_threads=4`
the computed chunk size is 8192 and `download` produces a single byte range,
not `num_threads = 4` ranges, refuting the claim that every file size is split
into exactly `threadCount` ranges. -/
theorem mkRanges_threadcount_cex :
    (mkRanges 10 (max 8192 (10 / 4))).length = 1
    ∧ (mkRanges 10 (max 8192 (10 / 4))).length ≠ 4 := by
  constructor <;> decide

/-- C6 (amended): for every positive file size and positive requested chunk size,
with computed chunk size `cs = max(chunk_size, file_size // num_threads)`, the
ranges produced by `Downloader.download` form a contiguous gap-free,
overlap-free cover of `[0, file_size - 1]` with `ceil(file_size / cs)` ranges
(not always `num_threads` many), each of at most `cs` bytes; the 10 MiB
instance with `chunk_size=8192`, `num_threads=4` yields exactly 4 ranges, each
of exactly `cs = 2621440 ≥ cs` bytes, covering `[0, 10485759]`. -/
theorem mkRanges_partition (file_size chunk_size num_threads cs : Nat)
    (hn : 1 ≤ file_size) (hcs1 : 1 ≤ chunk_size)
    (hc : cs = max chunk_size (file_size / num_threads)) :
    (mkRanges file_size cs).length = (file_size + cs - 1) / cs
    ∧ (∀ b, b < file_size → ∃ i, ∃ hi : i < (mkRanges file_size cs).length,
        ((mkRanges file_size cs)[i]).1 ≤ b ∧ b ≤ ((mkRanges file_size cs)[i]).2)
    ∧ (∀ i j (hi : i < (mkRanges file_size cs).length)
        (hj : j < (mkRanges file_size cs).length),
        i < j → ((mkRanges file_size cs)[i]).2 < ((mkRanges file_size cs)[j]).1)
    ∧ (∀ i (hi : i + 1 < (mkRanges file_size cs).length),
        ((mkRanges file_size cs)[i + 1]).1 = ((mkRanges file_size cs)[i]).2 + 1)
    ∧ (∀ r ∈ mkRanges file_size cs, r.2 + 1 - r.1 ≤ cs)
    ∧ mkRanges 10485760 (max 8192 (10485760 / 4)) =
        [(0, 2621439), (2621440, 5242879), (5242880, 7864319), (7864320, 10485759)] := by
  have hcs : 1 ≤ cs := by
    have := Nat.le_max_left chunk_size (file_size / num_threads)
    omega
  refine ⟨mkRanges_length _ _, ?_, ?_, ?_, ?_, by decide⟩
  · intro b hb
    have hi : b / cs < (mkRanges file_size cs).length := by
      rw [mkRanges_length]
      exact div_lt_ceil file_size cs b hcs hb
    refine ⟨b / cs, hi, ?_⟩
    rw [mkRanges_get _ _ _ hi]
    have h1 : b / cs * cs ≤ b := Nat.div_mul_le_self b cs
    have h2 : b < (b / cs + 1) * cs := lt_div_succ_mul b cs hcs
    have h3 : (b / cs + 1) * cs = b / cs * cs + cs := Nat.succ_mul _ cs
    constructor
    · exact h1
    · omega
  · intro i j hi hj hij
    rw [mkRanges_get _ _ _ hi, mkRanges_get _ _ _ hj]
    have h1 : (i + 1) * cs ≤ j * cs := Nat.mul_le_mul_right cs (by omega)
    have h2 : (i + 1) * cs = i * cs + cs := Nat.succ_mul i cs
    simp only []
    omega
  · intro i hi
    have hi1 : i < (mkRanges file_size cs).length := by omega
    rw [mkRanges_get _ _ _ hi, mkRanges_get _ _ _ hi1]
    have h1 : (i + 1) * cs < file_size := by
      rw [mkRanges_length] at hi
      exact ceil_div_lt_mul file_size cs (i + 1) hcs hi
    have h2 : (i + 1) * cs = i * cs + cs := Nat.succ_mul i cs
    simp only []
    omega
  · intro r hr
    simp only [mkRanges, List.mem_map, List.mem_range] at hr
    obtain ⟨k, hk, rfl⟩ := hr
    simp only []
    omega

/-- C6 witness: the theorem applied at the 10 MiB instance from the claim. -/
theorem mkRanges_partition_witness :
    (1 ≤ 10485760 ∧ 1 ≤ 8192 ∧ 2621440 = max 8192 (10485760 / 4))
    ∧ mkRanges 10485760 (max 8192 (10485760 / 4)) =
        [(0, 2621439), (2621440, 5242879), (5242880, 7864319), (7864320, 10485759)] :=
  ⟨⟨by decide, by decide, by decide⟩,
    (mkRanges_partition 10485760 8192 4 2621440 (by decide) (by decide)
      (by decide)).2.2.2.2.2⟩

/-- With an honest transport (every ranged GET returns exactly the requested
bytes), the fetched chunks have exactly the range lengths. -/
theorem fetchChunks_lengths (env : DEnv)
    (hhon : ∀ s e c, env.chunk s e = some c → c.length = e + 1 - s) :
    ∀ rs chunks, fetchChunks env rs = some chunks →
      chunks.map List.length = rs.map (fun r => r.2 + 1 - r.1) := by
  intro rs
  induction rs with
  | nil => intro chunks h; simp [fetchChunks] at h; simp [← h]
  | cons hd tl ih =>
    intro chunks h
    obtain ⟨s, e⟩ := hd
    simp only [fetchChunks] at h
    cases hc : env.chunk s e with
    | none => rw [hc] at h; exact absurd h (by simp)
    | some c =>
      rw [hc] at h
      cases hrest : fetchChunks env tl with
      | none => rw [hrest] at h; exact absurd h (by simp)
      | some cs2 =>
        rw [hrest] at h
        simp only [Option.some.injEq] at h
        subst h
        simp only [List.map_cons]
        rw [ih cs2 hrest, hhon s e c hc]

/-- C3: after any `Downloader.download` call on a destination that did not
exist beforehand, against a transport that returns exactly the requested bytes
for each ranged GET, the destination path either does not exist (on a `false`
return: all intermediate writes go to the `.tmp` name) or, on a `true` return,
holds the complete file of exactly the probed `content-length` size, reached
via the single atomic rename. -/
theorem download_atomicity (envs : Nat → DEnv) (output_file : String)
    (chunk_size num_threads : Nat) (fs : FSB)
    (h0 : lookupA output_file fs = none)
    (hhon : ∀ s e c, (envs 1).chunk s e = some c → c.length = e + 1 - s) :
    ((download envs output_file chunk_size num_threads fs).1 = false →
      lookupA output_file (download envs output_file chunk_size num_threads fs).2 = none)
    ∧ ((download envs output_file chunk_size num_threads fs).1 = true →
      ∃ n bytes, (envs 1).head = some n
        ∧ lookupA output_file (download envs output_file chunk_size num_threads fs).2
            = some bytes
        ∧ bytes.length = n) := by
  have heq : download envs output_file chunk_size num_threads fs
      = downloadOnce (envs 1) output_file chunk_size num_threads fs := rfl
  have htmplen : (output_file ++ ".tmp").length = output_file.length + 4 := by
    rw [String.length_append]
    have h4 : ".tmp".length = 4 := rfl
    omega
  have htmp : output_file ≠ output_file ++ ".tmp" := by
    intro hne
    have := congrArg String.length hne
    omega
  rw [heq]
  by_cases h1 : num_threads = 0
  · simp [downloadOnce, h1, h0]
  cases hhead : (envs 1).head with
  | none => simp [downloadOnce, h1, hhead, h0]
  | some file_size =>
    by_cases h2 : file_size = 0
    · simp [downloadOnce, h1, hhead, h2, h0]
    by_cases h3 : max chunk_size (file_size / num_threads) = 0
    · simp [downloadOnce, h1, hhead, h2, h3, h0]
    cases hfc : fetchChunks (envs 1)
        (mkRanges file_size (max chunk_size (file_size / num_threads))) with
    | none => simp [downloadOnce, h1, hhead, h2, h3, hfc, h0]
    | some chunks =>
      cases hwf : (envs 1).writeFailAfter with
      | some j =>
        simp [downloadOnce, h1, hhead, h2, h3, hfc, hwf,
          lookupA_insertA_ne _ _ _ _ htmp, h0]
      | none =>
        by_cases hren : (envs 1).renameOk
        · constructor
          · intro hfalse
            simp [downloadOnce, h1, hhead, h2, h3, hfc, hwf, hren] at hfalse
          · intro _
            refine ⟨file_size, chunks.flatten, rfl, ?_, ?_⟩
            · simp [downloadOnce, h1, hhead, h2, h3, hfc, hwf, hren, lookupA_insertA_self]
            · rw [List.length_flatten, fetchChunks_lengths (envs 1) hhon _ _ hfc]
              exact mkRanges_sum_len _ (by omega) file_size
        · simp [downloadOnce, h1, hhead, h2, h3, hfc, hwf, hren,
            lookupA_insertA_ne _ _ _ _ htmp, h0]

/-- Concrete honest 5-byte transport used in the C3 witness. -/
def wDEnv : DEnv :=
  ⟨some 5, fun s e => some (List.replicate (e + 1 - s) 7), none, true⟩

/-- C3 witness: a concrete 5-byte download over an honest transport from an
empty filesystem. -/
theorem download_atomicity_witness :
    (lookupA "out.nc" ([] : FSB) = none
      ∧ ∀ s e c, ((fun _ => wDEnv : Nat → DEnv) 1).chunk s e = some c →
          c.length = e + 1 - s)
    ∧ (((download (fun _ => wDEnv) "out.nc" 8192 4 []).1 = false →
        lookupA "out.nc" (download (fun _ => wDEnv) "out.nc" 8192 4 []).2 = none)
      ∧ ((download (fun _ => wDEnv) "out.nc" 8192 4 []).1 = true →
        ∃ n bytes, ((fun _ => wDEnv : Nat → DEnv) 1).head = some n
          ∧ lookupA "out.nc" (download (fun _ => wDEnv) "out.nc" 8192 4 []).2 = some bytes
          ∧ bytes.length = n)) := by
  have hon : ∀ s e c, wDEnv.chunk s e = some c → c.length = e + 1 - s := by
    intro s e c hc
    simp only [wDEnv, Option.some.injEq] at hc
    rw [← hc, List.length_replicate]
  exact ⟨⟨rfl, hon⟩, download_atomicity (fun _ => wDEnv) "out.nc" 8192 4 [] rfl hon⟩

/-! ## Validator (`Validator.validate_file`, `Validator.compute_sha256`)

A data file is modelled by its byte size, whether the scientific reader can
open it, and its named variables with their (flattened) numeric values.
`xarray` values are modelled as rationals. -/

structure DataFile where
  size : Nat
  openOk : Bool
  vars : List (String × List ℚ)
  deriving DecidableEq

/-- Dataset-level filesystem: path → data file. -/
abbrev FSA := List (String × DataFile)

/-- Prefix test helper: `isPre pat s` iff `pat` is a leading piece of `s`. -/
def isPre : List Char → List Char → Bool
  | [], _ => true
  | _ :: _, [] => false
  | a :: as, b :: bs => a = b && isPre as bs

/-- Substring test `pat in s` for strings viewed as character lists. -/
def containsSub (pat : List Char) : List Char → Bool
  | [] => isPre pat []
  | c :: rest => isPre pat (c :: rest) || containsSub pat rest

/-- The test `'temperature' in var.lower()` (variable names are ASCII). -/
def containsTemp (name : String) : Bool :=
  containsSub "temperature".toList (name.toList.map Char.toLower)

/-- Model of `Validator.validate_file`: missing or empty file fails; a file the reader
cannot open raises inside the `try` and fails; with a truthy `expected_vars`
every expected variable must be present; every variable whose lowercased name
contains `temperature` must have all values inside `[200, 350]`. -/
def validate_file (fs : FSA) (file_path : String) (expected_vars : List String) : Bool :=
  match lookupA file_path fs with
  | none => false
  | some f =>
    if f.size = 0 then false
    else if !f.openOk then false
    else if (!expected_vars.isEmpty)
        && !(expected_vars.all (fun v => f.vars.any (fun p => p.1 = v))) then false
    else if f.vars.any (fun p =>
        containsTemp p.1 && p.2.any (fun x => decide (x < 200) || decide (x > 350))) then
      false
    else true

/-- Model of `Validator.compute_sha256`: a streaming digest of the file bytes, modelled
as an abstract deterministic function `hashFn` of the file content; opening a
missing file raises, which the method catches, returning `None`. -/
def compute_sha256 (hashFn : DataFile → Option String) (fs : FSA) (file_path : String) :
    Option String :=
  match lookupA file_path fs with
  | none => none
  | some f => hashFn f

/-- C7: for an existing, non-empty, readable file, validation fails exactly when
some expected variable is absent or some variable whose name contains
`temperature` (case-insensitively) has a value outside `[200, 350]`. -/
theorem validate_file_iff (fs : FSA) (file_path : String) (expected_vars : List String)
    (f : DataFile) (hf : lookupA file_path fs = some f) (hsz : f.size ≠ 0)
    (hopen : f.openOk = true) :
    validate_file fs file_path expected_vars = false ↔
      ((∃ v ∈ expected_vars, ∀ p ∈ f.vars, p.1 ≠ v)
        ∨ (∃ p ∈ f.vars, containsTemp p.1 = true ∧ ∃ x ∈ p.2, x < 200 ∨ x > 350)) := by
  have hc1 : ((!expected_vars.isEmpty)
      && !(expected_vars.all (fun v => f.vars.any (fun p => p.1 = v)))) = true ↔
      ∃ v ∈ expected_vars, ∀ p ∈ f.vars, p.1 ≠ v := by
    constructor
    · intro h
      simp only [Bool.and_eq_true, Bool.not_eq_true', List.all_eq_false, List.any_eq_true,
        decide_eq_true_eq] at h
      obtain ⟨-, v, hv, hnot⟩ := h
      push_neg at hnot
      exact ⟨v, hv, hnot⟩
    · rintro ⟨v, hv, habs⟩
      simp only [Bool.and_eq_true, Bool.not_eq_true', List.all_eq_false, List.any_eq_true,
        decide_eq_true_eq]
      refine ⟨Bool.eq_false_iff.mpr ?_, v, hv, ?_⟩
      · rw [Ne, List.isEmpty_iff]
        exact List.ne_nil_of_mem hv
      · push_neg
        exact habs
  have hc2 : (f.vars.any (fun p =>
      containsTemp p.1 && p.2.any (fun x => decide (x < 200) || decide (x > 350)))) = true ↔
      ∃ p ∈ f.vars, containsTemp p.1 = true ∧ ∃ x ∈ p.2, x < 200 ∨ x > 350 := by
    simp only [List.any_eq_true, Bool.and_eq_true, Bool.or_eq_true, decide_eq_true_eq]
  simp only [validate_file, hf, hsz, if_false, hopen, Bool.not_true, Bool.false_eq_true,
    if_false]
  by_cases h1 : ((!expected_vars.isEmpty)
      && !(expected_vars.all (fun v => f.vars.any (fun p => p.1 = v)))) = true
  · simp only [h1, if_true]
    exact ⟨fun _ => Or.inl (hc1.mp h1), fun _ => trivial⟩
  · simp only [h1]
    by_cases h2 : (f.vars.any (fun p =>
        containsTemp p.1 && p.2.any (fun x => decide (x < 200) || decide (x > 350)))) = true
    · simp only [h2, if_true, Bool.false_eq_true, if_false]
      exact ⟨fun _ => Or.inr (hc2.mp h2), fun _ => by simp [h1, h2]⟩
    · simp only [h2, Bool.false_eq_true, if_false]
      constructor
      · intro habs
        simp [h1, h2] at habs
      · rintro (hmiss | htemp)
        · exact absurd (hc1.mpr hmiss) h1
        · exact absurd (hc2.mpr htemp) h2

/-- The out-of-band-temperature file of Scenario E. -/
def fW1 : DataFile := ⟨100, true, [("2m_temperature", [500])]⟩

/-- The in-band-temperature file of Scenario E. -/
def fW2 : DataFile := ⟨100, true, [("2m_temperature", [250, 300])]⟩

/-- Witness filesystem holding both Scenario E files. -/
def fsW : FSA := [("f1", fW1), ("f2", fW2)]

/-- C7 witness: a `2m_temperature` variable holding 500 fails validation (via the
theorem), and one holding only values in `[250, 300]` passes. -/
theorem validate_file_iff_witness :
    (lookupA "f1" fsW = some fW1 ∧ fW1.size ≠ 0 ∧ fW1.openOk = true)
    ∧ validate_file fsW "f1" ["2m_temperature"] = false
    ∧ validate_file fsW "f2" ["2m_temperature"] = true :=
  ⟨⟨by decide, by decide, by decide⟩,
    (validate_file_iff fsW "f1" ["2m_temperature"] fW1 (by decide) (by decide)
        (by decide)).mpr
      (Or.inr ⟨("2m_temperature", [500]), by decide, by decide,
        500, by decide, Or.inr (by decide)⟩),
    by decide⟩

/-! ## Optimizer (`Optimizer.predict_workers`)

The fitted regressor, the CPU/memory load sensors and the possibility of an
internal exception (`psutil` or an unfitted model raising) are environment
data: `modelPred` is the opaque fitted model evaluated on the feature vector
`[avg_response, 100, cpu_load, mem_load]`, and `raises = true` sends control to
the `except` handler, which returns the static default 3. -/

structure OEnv where
  raises : Bool
  cpu : ℚ
  mem : ℚ
  modelPred : ℚ → ℚ → ℚ → ℚ

/-- Mean as computed by `np.mean` on a nonempty list of response times. -/
def listMeanQ (l : List ℚ) : ℚ := l.sum / l.length

/-- Python `int(...)` on a float/rational: truncation toward zero. -/
def pyInt (q : ℚ) : Int := if q < 0 then ⌈q⌉ else ⌊q⌋

/-- Model of `Optimizer.predict_workers`. -/
def predict_workers (env : OEnv) (histLen : Nat) (response_times : List ℚ) : Int :=
  if response_times = [] then 3
  else if env.raises then 3
  else if histLen > 10 then
    max 1 (min 5 (pyInt (env.modelPred (listMeanQ response_times) env.cpu env.mem * 3)))
  else if listMeanQ response_times < 5 then 3
  else 1

/-- C8: the function `predict_workers` always returns an integer in `[1, 5]`, for every
response-time sequence, every history length, every model prediction and even
when an internal error occurs. -/
theorem predict_workers_bounds (env : OEnv) (histLen : Nat) (rts : List ℚ) :
    1 ≤ predict_workers env histLen rts ∧ predict_workers env histLen rts ≤ 5 := by
  unfold predict_workers
  by_cases h1 : rts = []
  · rw [if_pos h1]; exact ⟨by norm_num, by norm_num⟩
  · rw [if_neg h1]
    by_cases h2 : env.raises = true
    · rw [if_pos h2]; exact ⟨by norm_num, by norm_num⟩
    · rw [if_neg h2]
      by_cases h3 : histLen > 10
      · rw [if_pos h3]; omega
      · rw [if_neg h3]
        by_cases h4 : listMeanQ rts < 5
        · rw [if_pos h4]; exact ⟨by norm_num, by norm_num⟩
        · rw [if_neg h4]; exact ⟨by norm_num, by norm_num⟩

/-- C9: with at most 10 history samples and no internal error, the bootstrap
heuristic applies: empty response times give 3, a mean strictly below 5 seconds
gives 3, and any other mean gives 1. -/
theorem predict_workers_bootstrap (env : OEnv) (histLen : Nat) (rts : List ℚ)
    (hh : histLen ≤ 10) (henv : env.raises = false) :
    (rts = [] → predict_workers env histLen rts = 3)
    ∧ (rts ≠ [] → listMeanQ rts < 5 → predict_workers env histLen rts = 3)
    ∧ (rts ≠ [] → ¬listMeanQ rts < 5 → predict_workers env histLen rts = 1) := by
  have h3 : ¬histLen > 10 := by omega
  have h2 : ¬env.raises = true := by rw [henv]; exact Bool.false_ne_true
  refine ⟨fun h1 => ?_, fun h1 h4 => ?_, fun h1 h4 => ?_⟩
  · unfold predict_workers; rw [if_pos h1]
  · unfold predict_workers; rw [if_neg h1, if_neg h2, if_neg h3, if_pos h4]
  · unfold predict_workers; rw [if_neg h1, if_neg h2, if_neg h3, if_neg h4]

/-- C9 witness: 5 history samples and response times of mean 2.0 s yield 3. -/
theorem predict_workers_bootstrap_witness :
    ((5 : Nat) ≤ 10 ∧ (OEnv.mk false 0 0 (fun _ _ _ => 0)).raises = false
      ∧ ([(2 : ℚ), 2, 2, 2, 2] ≠ [] ∧ listMeanQ [2, 2, 2, 2, 2] < 5))
    ∧ predict_workers (OEnv.mk false 0 0 (fun _ _ _ => 0)) 5 [2, 2, 2, 2, 2] = 3 :=
  ⟨⟨by norm_num, rfl, by decide,
      by norm_num [listMeanQ, List.sum_cons, List.sum_nil]⟩,
    (predict_workers_bootstrap (OEnv.mk false 0 0 (fun _ _ _ => 0)) 5 [2, 2, 2, 2, 2]
        (by norm_num) rfl).2.1 (by decide)
      (by norm_num [listMeanQ, List.sum_cons, List.sum_nil])⟩

/-! ## Pipeline (`Pipeline.process` and the per-dataset fetch strategies)

State and environment of one `process` call.  The four fetch strategies
(`download_era5`, `download_modis_snow`, `download_goes16`, `download_gpm`)
each catch their own exceptions and return a boolean, so towards `process`
they are a boolean outcome plus, on success, a file written at the path the
strategy itself computes (note the strategies hardcode the extensions `.nc`,
`.hdf`, `.nc`, `.hdf5`, while `process` derives its expected path from the
configured `format` field).  The module never imports `time`, so the statement
`start_time = time.time()` raises `NameError` when executed; `clockOk = true`
models an interpreter state in which the name resolves (the evidently intended
behavior), `clockOk = false` the state the source ships. -/

structure Txn where
  action : String
  details : List (String × String)
  timestamp : String
  deriving DecidableEq

structure Metrics where
  success : Nat
  failures : Nat
  total_time : ℚ
  total_size : ℚ
  response_times : List ℚ
  deriving DecidableEq

structure CacheEntry where
  file : String
  access_count : Nat
  deriving DecidableEq

structure PState where
  transaction_log : List Txn
  download_metrics : Metrics
  cache : List (String × CacheEntry)
  fs : FSA
  deriving DecidableEq

inductive FetchOutcome where
  | ok (df : DataFile)
  | fail
  deriving DecidableEq

structure PEnv where
  hashFn : DataFile → Option String
  clockOk : Bool
  t0 : ℚ
  t1 : ℚ
  now : String
  fetch : FetchOutcome

/-- Result of one `process` call: the returned boolean, the final pipeline
state, whether a fetch strategy was invoked (trace instrumentation; the
cache-hit and unknown-dataset paths never dispatch), and the S3 uploads
performed. -/
structure PResult where
  ret : Bool
  st : PState
  fetchInvoked : Bool
  uploads : List (String × String)
  deriving DecidableEq

structure DatasetCfg where
  fmt : String
  expectedVars : List String
  deriving DecidableEq

/-- Zero-padded month `f'{month:02d}'`. -/
def pad2 (m : Nat) : String := if m < 10 then "0" ++ toString m else toString m

/-- The expected artifact path `f'{DATA_DIR}/{dataset}_{date.year}{date.month:02d}.{format}'`. -/
def outputPath (dataset fmt : String) (year month : Nat) : String :=
  "./data/" ++ dataset ++ "_" ++ toString year ++ pad2 month ++ "." ++ fmt

/-- The output path each fetch strategy writes to (hardcoded extensions). -/
def strategyFile (dataset : String) (year month : Nat) : String :=
  if dataset = "era5" then "./data/era5_" ++ toString year ++ pad2 month ++ ".nc"
  else if dataset = "modis_snow" then
    "./data/modis_snow_" ++ toString year ++ pad2 month ++ ".hdf"
  else if dataset = "goes16" then "./data/goes16_" ++ toString year ++ pad2 month ++ ".nc"
  else "./data/gpm_" ++ toString year ++ pad2 month ++ ".hdf5"

/-- Model of `Pipeline.log_transaction`: append to the in-memory list (the file write is
its persistence and cannot fail the append — its exceptions are caught). -/
def log_transaction (now : String) (st : PState) (action : String)
    (details : List (String × String)) : PState :=
  { st with transaction_log := st.transaction_log ++ [⟨action, details, now⟩] }

/-- The common tail of every non-exception failure path of `process`
(lines `self.download_metrics['failures'] += 1`; `fail_download`; `return False`). -/
def failTail (now dataset : String) (st : PState) : PResult :=
  let st2 := { st with download_metrics := { st.download_metrics with
    failures := st.download_metrics.failures + 1 } }
  ⟨false, log_transaction now st2 "fail_download"
    [("dataset", dataset), ("reason", "download or validation failed")], true, []⟩

/-- The `if/elif` dispatch to the dataset strategy.  In dry-run mode every
strategy only notifies and returns `True`; otherwise the strategy either
succeeds, placing the fetched file (with provenance attributes stamped) at its
hardcoded path, or returns `False` having caught its own exception. -/
def runFetch (env : PEnv) (dataset : String) (year month : Nat) (dry_run : Bool)
    (fs : FSA) : Bool × FSA :=
  if dry_run then (true, fs)
  else
    match env.fetch with
    | .ok df => (true, insertA (strategyFile dataset year month) df fs)
    | .fail => (false, fs)

/-- The cache-hit test `if file_hash and file_hash in self.cache`. -/
def hashHit (fh : Option String) (cache : List (String × CacheEntry)) : Bool :=
  match fh with
  | some h => !(h == "") && cache.any (fun p => p.1 = h)
  | none => false

/-- The assignment `file_hash = self.validator.compute_sha256(output_file) if
os.path.exists(output_file) else None`. -/
def fileHashOf (env : PEnv) (st : PState) (output_file : String) : Option String :=
  if (lookupA output_file st.fs).isSome then compute_sha256 env.hashFn st.fs output_file
  else none

/-- State after the `start_download` transaction. -/
def startState (env : PEnv) (st : PState) (dataset : String) (year month : Nat) : PState :=
  log_transaction env.now st "start_download"
    [("dataset", dataset), ("date", toString year ++ "-" ++ pad2 month)]

/-- State after the strategy dispatch: the strategy's filesystem effect plus
the unconditional `response_times.append(elapsed)`. -/
def fetchedState (env : PEnv) (dataset : String) (year month : Nat) (dry_run : Bool)
    (st1 : PState) : PState :=
  { st1 with
    fs := (runFetch env dataset year month dry_run st1.fs).2
    download_metrics := { st1.download_metrics with
      response_times := st1.download_metrics.response_times ++ [env.t1 - env.t0] } }

/-- The successful tail of `process`: cache insert with access-count bump,
success metrics, `complete_download` transaction, optional S3 upload,
`return True`. -/
def successResult (env : PEnv) (st2 : PState) (dataset : String) (dcfg : DatasetCfg)
    (year month : Nat) (h : String) (aws_bucket : Option String) : PResult :=
  let output_file := outputPath dataset dcfg.fmt year month
  let prev := match lookupA h st2.cache with
    | some e => e.access_count
    | none => 0
  let fsize : ℚ := match lookupA output_file st2.fs with
    | some f => (f.size : ℚ) / (1024 * 1024)
    | none => 0
  let st3 := { st2 with
    cache := insertA h ⟨output_file, prev + 1⟩ st2.cache
    download_metrics := { st2.download_metrics with
      success := st2.download_metrics.success + 1
      total_time := st2.download_metrics.total_time + (env.t1 - env.t0)
      total_size := st2.download_metrics.total_size + fsize } }
  let st4 := log_transaction env.now st3 "complete_download"
    [("dataset", dataset), ("file", output_file), ("hash", h)]
  ⟨true, st4, true,
    match aws_bucket with
    | some b => [(b, "data/" ++ dataset ++ "_" ++ toString year ++ pad2 month
        ++ "." ++ dcfg.fmt)]
    | none => []⟩

/-- Model of `Pipeline.process`.  The translation follows the source line by line; the
`clockOk = false` branch is the `except Exception` handler reached from the
`NameError` at `start_time = time.time()` (the module never imports `time`);
the handler notifies, records `fail_download` with `str(e)` as reason and
returns `False` without touching the failure counter. -/
def process (cfg : List (String × DatasetCfg)) (env : PEnv) (st : PState)
    (dataset : String) (year month : Nat) (dry_run : Bool) (aws_bucket : Option String) :
    PResult :=
  match lookupA dataset cfg with
  | none => ⟨false, st, false, []⟩
  | some dcfg =>
    let output_file := outputPath dataset dcfg.fmt year month
    if hashHit (fileHashOf env st output_file) st.cache then ⟨true, st, false, []⟩
    else
      let st1 := startState env st dataset year month
      if env.clockOk = false then
        ⟨false, log_transaction env.now st1 "fail_download"
          [("dataset", dataset), ("reason", "NameError: name time is not defined")],
          false, []⟩
      else
        let st2 := fetchedState env dataset year month dry_run st1
        if (runFetch env dataset year month dry_run st1.fs).1 && !dry_run then
          if validate_file st2.fs output_file dcfg.expectedVars then
            match compute_sha256 env.hashFn st2.fs output_file with
            | some h =>
              if h = "" then
                failTail env.now dataset (log_transaction env.now st2 "rollback_download"
                  [("dataset", dataset), ("reason", "hash computation failed")])
              else successResult env st2 dataset dcfg year month h aws_bucket
            | none =>
              failTail env.now dataset (log_transaction env.now st2 "rollback_download"
                [("dataset", dataset), ("reason", "hash computation failed")])
          else
            failTail env.now dataset (log_transaction env.now
              { st2 with fs := eraseA output_file st2.fs } "rollback_download"
              [("dataset", dataset), ("reason", "validation failed")])
        else failTail env.now dataset st2

/-! ### Helper lemmas about the pipeline pieces -/

theorem insertA_any_self {α : Type} (k : String) (v : α) (l : List (String × α)) :
    ((insertA k v l).any (fun p => p.1 = k)) = true := by
  induction l with
  | nil => simp [insertA]
  | cons hd tl ih =>
    by_cases h : hd.1 = k
    · simp [insertA, h]
    · simp [insertA, h, ih]

theorem compute_some_isSome (hf : DataFile → Option String) (fs : FSA) (p h : String)
    (hc : compute_sha256 hf fs p = some h) : (lookupA p fs).isSome = true := by
  unfold compute_sha256 at hc
  cases hl : lookupA p fs with
  | none => rw [hl] at hc; exact absurd hc (by simp)
  | some f => simp

theorem process_hit_helper (cfg : List (String × DatasetCfg)) (env : PEnv) (st : PState)
    (dataset : String) (year month : Nat) (dry_run : Bool) (aws_bucket : Option String)
    (dcfg : DatasetCfg) (hknown : lookupA dataset cfg = some dcfg)
    (hhit : hashHit (fileHashOf env st (outputPath dataset dcfg.fmt year month))
      st.cache = true) :
    process cfg env st dataset year month dry_run aws_bucket = ⟨true, st, false, []⟩ := by
  simp [process, hknown, hhit]

/-- Exhaustive description of the outcomes of one `process` call. -/
theorem process_cases (cfg : List (String × DatasetCfg)) (env : PEnv) (st : PState)
    (dataset : String) (year month : Nat) (dry_run : Bool) (aws_bucket : Option String) :
    (lookupA dataset cfg = none
      ∧ process cfg env st dataset year month dry_run aws_bucket = ⟨false, st, false, []⟩)
    ∨ (∃ dcfg, lookupA dataset cfg = some dcfg
      ∧ hashHit (fileHashOf env st (outputPath dataset dcfg.fmt year month)) st.cache = true
      ∧ process cfg env st dataset year month dry_run aws_bucket = ⟨true, st, false, []⟩)
    ∨ (∃ dcfg, lookupA dataset cfg = some dcfg
      ∧ hashHit (fileHashOf env st (outputPath dataset dcfg.fmt year month)) st.cache = false
      ∧ env.clockOk = false
      ∧ process cfg env st dataset year month dry_run aws_bucket
        = ⟨false, log_transaction env.now (startState env st dataset year month)
            "fail_download"
            [("dataset", dataset), ("reason", "NameError: name time is not defined")],
          false, []⟩)
    ∨ (∃ dcfg, lookupA dataset cfg = some dcfg
      ∧ hashHit (fileHashOf env st (outputPath dataset dcfg.fmt year month)) st.cache = false
      ∧ env.clockOk = true
      ∧ ((runFetch env dataset year month dry_run
            (startState env st dataset year month).fs).1 && !dry_run) = false
      ∧ process cfg env st dataset year month dry_run aws_bucket
        = failTail env.now dataset
            (fetchedState env dataset year month dry_run
              (startState env st dataset year month)))
    ∨ (∃ dcfg, lookupA dataset cfg = some dcfg
      ∧ hashHit (fileHashOf env st (outputPath dataset dcfg.fmt year month)) st.cache = false
      ∧ env.clockOk = true
      ∧ ((runFetch env dataset year month dry_run
            (startState env st dataset year month).fs).1 && !dry_run) = true
      ∧ validate_file (fetchedState env dataset year month dry_run
            (startState env st dataset year month)).fs
          (outputPath dataset dcfg.fmt year month) dcfg.expectedVars = false
      ∧ process cfg env st dataset year month dry_run aws_bucket
        = failTail env.now dataset (log_transaction env.now
            { fetchedState env dataset year month dry_run
                (startState env st dataset year month) with
              fs := eraseA (outputPath dataset dcfg.fmt year month)
                (fetchedState env dataset year month dry_run
                  (startState env st dataset year month)).fs }
            "rollback_download"
            [("dataset", dataset), ("reason", "validation failed")]))
    ∨ (∃ dcfg, lookupA dataset cfg = some dcfg
      ∧ hashHit (fileHashOf env st (outputPath dataset dcfg.fmt year month)) st.cache = false
      ∧ env.clockOk = true
      ∧ ((runFetch env dataset year month dry_run
            (startState env st dataset year month).fs).1 && !dry_run) = true
      ∧ validate_file (fetchedState env dataset year month dry_run
            (startState env st dataset year month)).fs
          (outputPath dataset dcfg.fmt year month) dcfg.expectedVars = true
      ∧ (compute_sha256 env.hashFn (fetchedState env dataset year month dry_run
            (startState env st dataset year month)).fs
            (outputPath dataset dcfg.fmt year month) = none
        ∨ compute_sha256 env.hashFn (fetchedState env dataset year month dry_run
            (startState env st dataset year month)).fs
            (outputPath dataset dcfg.fmt year month) = some "")
      ∧ process cfg env st dataset year month dry_run aws_bucket
        = failTail env.now dataset (log_transaction env.now
            (fetchedState env dataset year month dry_run
              (startState env st dataset year month))
            "rollback_download"
            [("dataset", dataset), ("reason", "hash computation failed")]))
    ∨ (∃ dcfg h, lookupA dataset cfg = some dcfg
      ∧ hashHit (fileHashOf env st (outputPath dataset dcfg.fmt year month)) st.cache = false
      ∧ env.clockOk = true
      ∧ ((runFetch env dataset year month dry_run
            (startState env st dataset year month).fs).1 && !dry_run) = true
      ∧ validate_file (fetchedState env dataset year month dry_run
            (startState env st dataset year month)).fs
          (outputPath dataset dcfg.fmt year month) dcfg.expectedVars = true
      ∧ compute_sha256 env.hashFn (fetchedState env dataset year month dry_run
            (startState env st dataset year month)).fs
          (outputPath dataset dcfg.fmt year month) = some h
      ∧ h ≠ ""
      ∧ process cfg env st dataset year month dry_run aws_bucket
        = successResult env (fetchedState env dataset year month dry_run
            (startState env st dataset year month)) dataset dcfg year month h aws_bucket) := by
  cases hcfg : lookupA dataset cfg with
  | none => exact Or.inl ⟨rfl, by simp [process, hcfg]⟩
  | some dcfg =>
    right
    by_cases hhit : hashHit (fileHashOf env st (outputPath dataset dcfg.fmt year month))
        st.cache = true
    · exact Or.inl ⟨dcfg, rfl, hhit, by simp [process, hcfg, hhit]⟩
    have hhitf : hashHit (fileHashOf env st (outputPath dataset dcfg.fmt year month))
        st.cache = false := Bool.eq_false_iff.mpr hhit
    right
    by_cases hclock : env.clockOk = false
    · exact Or.inl ⟨dcfg, rfl, hhitf, hclock, by simp [process, hcfg, hhitf, hclock]⟩
    have hclockt : env.clockOk = true := by
      revert hclock; cases env.clockOk <;> simp
    right
    by_cases hcond : ((runFetch env dataset year month dry_run
        (startState env st dataset year month).fs).1 && !dry_run) = true
    · right
      by_cases hval : validate_file (fetchedState env dataset year month dry_run
            (startState env st dataset year month)).fs
          (outputPath dataset dcfg.fmt year month) dcfg.expectedVars = true
      · right
        cases hcs : compute_sha256 env.hashFn (fetchedState env dataset year month dry_run
            (startState env st dataset year month)).fs
            (outputPath dataset dcfg.fmt year month) with
        | none =>
          exact Or.inl ⟨dcfg, rfl, hhitf, hclockt, hcond, hval, Or.inl hcs,
            by simp [process, hcfg, hhitf, hclockt, hcond, hval, hcs]⟩
        | some h =>
          by_cases hhe : h = ""
          · subst hhe
            exact Or.inl ⟨dcfg, rfl, hhitf, hclockt, hcond, hval, Or.inr hcs,
              by simp [process, hcfg, hhitf, hclockt, hcond, hval, hcs]⟩
          · exact Or.inr ⟨dcfg, h, rfl, hhitf, hclockt, hcond, hval, hcs, hhe,
              by simp [process, hcfg, hhitf, hclockt, hcond, hval, hcs, hhe]⟩
      · have hvalf : validate_file (fetchedState env dataset year month dry_run
              (startState env st dataset year month)).fs
            (outputPath dataset dcfg.fmt year month) dcfg.expectedVars = false :=
          Bool.eq_false_iff.mpr hval
        exact Or.inl ⟨dcfg, rfl, hhitf, hclockt, hcond, hvalf,
          by simp [process, hcfg, hhitf, hclockt, hcond, hvalf]⟩
    · have hcondf : ((runFetch env dataset year month dry_run
          (startState env st dataset year month).fs).1 && !dry_run) = false :=
        Bool.eq_false_iff.mpr hcond
      exact Or.inl ⟨dcfg, rfl, hhitf, hclockt, hcondf,
        by simp [process, hcfg, hhitf, hclockt, hcondf]⟩

/-! ## Pipeline claim theorems -/

/-- C10: when `process` takes the cache-hit path (the output file exists, its
checksum computes and is a cache key), it returns `true` with the transaction
log, every download-metrics field, the cache (including the hit entry's access
count, which is not bumped on this path) and the filesystem all unchanged, no
fetch strategy invoked and no upload performed. -/
theorem process_cache_hit_frame (cfg : List (String × DatasetCfg)) (env : PEnv)
    (st : PState) (dataset : String) (year month : Nat) (dry_run : Bool)
    (aws_bucket : Option String) (dcfg : DatasetCfg)
    (hknown : lookupA dataset cfg = some dcfg)
    (hhit : hashHit (fileHashOf env st (outputPath dataset dcfg.fmt year month))
      st.cache = true) :
    (process cfg env st dataset year month dry_run aws_bucket).ret = true
    ∧ (process cfg env st dataset year month dry_run aws_bucket).st = st
    ∧ (process cfg env st dataset year month dry_run aws_bucket).fetchInvoked = false
    ∧ (process cfg env st dataset year month dry_run aws_bucket).uploads = [] := by
  rw [process_hit_helper cfg env st dataset year month dry_run aws_bucket dcfg hknown hhit]
  exact ⟨rfl, rfl, rfl, rfl⟩

/-- The GPM file used by pipeline witnesses. -/
def dfG : DataFile := ⟨100, true, [("precipitationCal", [1])]⟩

/-- Configuration holding the `gpm` dataset (format `hdf5`, expected variable
`precipitationCal`), as in `DEFAULT_CONFIG`. -/
def cfgW : List (String × DatasetCfg) := [("gpm", ⟨"hdf5", ["precipitationCal"]⟩)]

/-- Environment for the C10 witness: constant checksum function, working clock. -/
def envHit : PEnv := ⟨fun _ => some "h1", true, 0, 0, "t0", FetchOutcome.fail⟩

/-- State for the C10 witness: the artifact is on disk and its checksum is
cached with access count 1. -/
def stHit : PState :=
  ⟨[], ⟨0, 0, 0, 0, []⟩, [("h1", ⟨"./data/gpm_202306.hdf5", 1⟩)],
    [("./data/gpm_202306.hdf5", dfG)]⟩

/-- C10 witness: a concrete cache hit leaves the state untouched. -/
theorem process_cache_hit_frame_witness :
    (lookupA "gpm" cfgW = some ⟨"hdf5", ["precipitationCal"]⟩
      ∧ hashHit (fileHashOf envHit stHit (outputPath "gpm" "hdf5" 2023 6))
          stHit.cache = true)
    ∧ (process cfgW envHit stHit "gpm" 2023 6 false none).ret = true
    ∧ (process cfgW envHit stHit "gpm" 2023 6 false none).st = stHit
    ∧ (process cfgW envHit stHit "gpm" 2023 6 false none).fetchInvoked = false
    ∧ (process cfgW envHit stHit "gpm" 2023 6 false none).uploads = [] :=
  ⟨⟨by decide, by decide⟩,
    process_cache_hit_frame cfgW envHit stHit "gpm" 2023 6 false none
      ⟨"hdf5", ["precipitationCal"]⟩ (by decide) (by decide)⟩

/-- C5: if a first `process` call for a (dataset, date) returned `true` (not
dry-run), a second call on the resulting state for the same (dataset, date),
with the same checksum function, is a cache hit: it returns `true` and invokes
no fetch strategy (hence performs no network activity). -/
theorem process_cache_idempotent (cfg : List (String × DatasetCfg)) (env env2 : PEnv)
    (st : PState) (dataset : String) (year month : Nat) (bucket bucket2 : Option String)
    (dry2 : Bool) (hhash : env2.hashFn = env.hashFn)
    (hret : (process cfg env st dataset year month false bucket).ret = true) :
    (process cfg env2 (process cfg env st dataset year month false bucket).st
        dataset year month dry2 bucket2).ret = true
    ∧ (process cfg env2 (process cfg env st dataset year month false bucket).st
        dataset year month dry2 bucket2).fetchInvoked = false := by
  rcases process_cases cfg env st dataset year month false bucket with
    ⟨hcfg, heq⟩ | ⟨dcfg, hcfg, hhit, heq⟩ | ⟨dcfg, hcfg, hhit, hclock, heq⟩
    | ⟨dcfg, hcfg, hhit, hclock, hcond, heq⟩
    | ⟨dcfg, hcfg, hhit, hclock, hcond, hval, heq⟩
    | ⟨dcfg, hcfg, hhit, hclock, hcond, hval, hcs, heq⟩
    | ⟨dcfg, h, hcfg, hhit, hclock, hcond, hval, hcs, hhe, heq⟩
  · rw [heq] at hret; exact absurd hret (by simp)
  · -- first call was itself a cache hit: state unchanged, still a hit
    rw [heq]
    have hhit2 : hashHit (fileHashOf env2 st (outputPath dataset dcfg.fmt year month))
        st.cache = true := by
      unfold fileHashOf compute_sha256 at hhit ⊢
      rw [hhash]
      exact hhit
    rw [process_hit_helper cfg env2 st dataset year month dry2 bucket2 dcfg hcfg hhit2]
    exact ⟨rfl, rfl⟩
  · rw [heq] at hret; exact absurd hret (by simp)
  · rw [heq] at hret; simp [failTail] at hret
  · rw [heq] at hret; simp [failTail] at hret
  · rw [heq] at hret; simp [failTail] at hret
  · -- first call downloaded successfully; its hash is now a cache key
    rw [heq]
    have hfs : (successResult env (fetchedState env dataset year month false
        (startState env st dataset year month)) dataset dcfg year month h bucket).st.fs
        = (fetchedState env dataset year month false
            (startState env st dataset year month)).fs := by
      simp [successResult, log_transaction]
    have hcache : (successResult env (fetchedState env dataset year month false
        (startState env st dataset year month)) dataset dcfg year month h bucket).st.cache
        = insertA h ⟨outputPath dataset dcfg.fmt year month,
            (match lookupA h (fetchedState env dataset year month false
              (startState env st dataset year month)).cache with
             | some e => e.access_count
             | none => 0) + 1⟩
          (fetchedState env dataset year month false
            (startState env st dataset year month)).cache := by
      simp [successResult, log_transaction]
    have hhit2 : hashHit (fileHashOf env2
        (successResult env (fetchedState env dataset year month false
          (startState env st dataset year month)) dataset dcfg year month h bucket).st
        (outputPath dataset dcfg.fmt year month))
        (successResult env (fetchedState env dataset year month false
          (startState env st dataset year month)) dataset dcfg year month h bucket).st.cache
        = true := by
      unfold fileHashOf
      rw [hfs, hcache, hhash]
      rw [compute_some_isSome env.hashFn _ _ h hcs]
      simp only [if_true, hcs, hashHit]
      rw [insertA_any_self]
      simp [hhe]
    rw [process_hit_helper cfg env2 _ dataset year month dry2 bucket2 dcfg hcfg hhit2]
    exact ⟨rfl, rfl⟩

/-- Environment for the C5 witness: the fetch strategy succeeds with `dfG`. -/
def envDl : PEnv := ⟨fun _ => some "h1", true, 0, 0, "t1", FetchOutcome.ok dfG⟩

/-- The empty pipeline state (fresh `Pipeline.__init__`). -/
def stEmpty : PState := ⟨[], ⟨0, 0, 0, 0, []⟩, [], []⟩

/-- C5 witness: a concrete successful download followed by a second call that
hits the cache without invoking a fetch strategy. -/
theorem process_cache_idempotent_witness :
    (envDl.hashFn = envDl.hashFn
      ∧ (process cfgW envDl stEmpty "gpm" 2023 6 false none).ret = true)
    ∧ (process cfgW envDl (process cfgW envDl stEmpty "gpm" 2023 6 false none).st
        "gpm" 2023 6 false none).ret = true
    ∧ (process cfgW envDl (process cfgW envDl stEmpty "gpm" 2023 6 false none).st
        "gpm" 2023 6 false none).fetchInvoked = false :=
  ⟨⟨rfl, by decide⟩,
    process_cache_idempotent cfgW envDl envDl stEmpty "gpm" 2023 6 none none false rfl
      (by decide)⟩

/-- C4: if the fetch strategy succeeded (not dry-run) and validation of the
downloaded artifact returned `false`, then after `process` returns the
artifact does not exist at its final output path, and the transaction log has
gained exactly a `start_download`, a `rollback_download` with reason
`validation failed`, and the closing `fail_download` record. -/
theorem process_validation_rollback (cfg : List (String × DatasetCfg)) (env : PEnv)
    (st : PState) (dataset : String) (year month : Nat) (aws_bucket : Option String)
    (dcfg : DatasetCfg) (df : DataFile)
    (hknown : lookupA dataset cfg = some dcfg)
    (hnohit : hashHit (fileHashOf env st (outputPath dataset dcfg.fmt year month))
      st.cache = false)
    (hclock : env.clockOk = true)
    (hfetch : env.fetch = FetchOutcome.ok df)
    (hval : validate_file (insertA (strategyFile dataset year month) df st.fs)
      (outputPath dataset dcfg.fmt year month) dcfg.expectedVars = false) :
    (process cfg env st dataset year month false aws_bucket).ret = false
    ∧ lookupA (outputPath dataset dcfg.fmt year month)
        (process cfg env st dataset year month false aws_bucket).st.fs = none
    ∧ (process cfg env st dataset year month false aws_bucket).st.transaction_log
      = st.transaction_log
        ++ [⟨"start_download",
              [("dataset", dataset), ("date", toString year ++ "-" ++ pad2 month)],
              env.now⟩,
            ⟨"rollback_download",
              [("dataset", dataset), ("reason", "validation failed")], env.now⟩,
            ⟨"fail_download",
              [("dataset", dataset), ("reason", "download or validation failed")],
              env.now⟩] := by
  have hfs1 : (startState env st dataset year month).fs = st.fs := by
    simp [startState, log_transaction]
  have hcond : (runFetch env dataset year month false
      (startState env st dataset year month).fs).1 = true := by
    simp [runFetch, hfetch]
  have hfs2 : (fetchedState env dataset year month false
      (startState env st dataset year month)).fs
      = insertA (strategyFile dataset year month) df st.fs := by
    simp [fetchedState, runFetch, hfetch, hfs1]
  have hvalX : validate_file (fetchedState env dataset year month false
        (startState env st dataset year month)).fs
      (outputPath dataset dcfg.fmt year month) dcfg.expectedVars = false := by
    rw [hfs2]; exact hval
  have heq : process cfg env st dataset year month false aws_bucket
      = failTail env.now dataset (log_transaction env.now
          { fetchedState env dataset year month false
              (startState env st dataset year month) with
            fs := eraseA (outputPath dataset dcfg.fmt year month)
              (fetchedState env dataset year month false
                (startState env st dataset year month)).fs }
          "rollback_download"
          [("dataset", dataset), ("reason", "validation failed")]) := by
    simp [process, hknown, hnohit, hclock, hcond, hvalX]
  rw [heq]
  refine ⟨rfl, ?_, ?_⟩
  · simp [failTail, log_transaction, lookupA_eraseA_self]
  · simp [failTail, log_transaction, fetchedState, startState]

/-- The invalid file of the C4 witness: missing the expected variable and
holding an out-of-band temperature value. -/
def dfBad : DataFile := ⟨100, true, [("2m_temperature", [500])]⟩

/-- Environment for the C4 witness: the fetch strategy succeeds with `dfBad`. -/
def envBad : PEnv := ⟨fun _ => some "h1", true, 0, 0, "t2", FetchOutcome.ok dfBad⟩

/-- C4 witness: a concrete fetched-but-invalid artifact is deleted and the
rollback recorded. -/
theorem process_validation_rollback_witness :
    (lookupA "gpm" cfgW = some ⟨"hdf5", ["precipitationCal"]⟩
      ∧ hashHit (fileHashOf envBad stEmpty (outputPath "gpm" "hdf5" 2023 6))
          stEmpty.cache = false
      ∧ envBad.clockOk = true
      ∧ envBad.fetch = FetchOutcome.ok dfBad
      ∧ validate_file (insertA (strategyFile "gpm" 2023 6) dfBad stEmpty.fs)
          (outputPath "gpm" "hdf5" 2023 6) ["precipitationCal"] = false)
    ∧ (process cfgW envBad stEmpty "gpm" 2023 6 false none).ret = false
    ∧ lookupA (outputPath "gpm" "hdf5" 2023 6)
        (process cfgW envBad stEmpty "gpm" 2023 6 false none).st.fs = none
    ∧ (process cfgW envBad stEmpty "gpm" 2023 6 false none).st.transaction_log
      = stEmpty.transaction_log
        ++ [⟨"start_download",
              [("dataset", "gpm"), ("date", toString 2023 ++ "-" ++ pad2 6)], envBad.now⟩,
            ⟨"rollback_download",
              [("dataset", "gpm"), ("reason", "validation failed")], envBad.now⟩,
            ⟨"fail_download",
              [("dataset", "gpm"), ("reason", "download or validation failed")],
              envBad.now⟩] :=
  ⟨⟨by decide, by decide, rfl, rfl, by decide⟩,
    process_validation_rollback cfgW envBad stEmpty "gpm" 2023 6 none
      ⟨"hdf5", ["precipitationCal"]⟩ dfBad (by decide) (by decide) rfl rfl (by decide)⟩

/-- Environment for the C1 counterexample: the interpreter state the source
actually ships (`time` never imported, so `time.time()` raises `NameError`). -/
def envExc : PEnv := ⟨fun _ => none, false, 0, 0, "t3", FetchOutcome.fail⟩

/-- C1 counterexample: a `process` call that reaches a failure outcome through
an exception (the `NameError` from the missing `time` import) records the
`fail_download` transaction and returns `false`, but does NOT increment the
failures counter — it stays 0 — refuting the claim that every failure outcome
increments the counter. -/
theorem process_exception_counter_cex :
    (process cfgW envExc stEmpty "gpm" 2023 6 false none).ret = false
    ∧ ((process cfgW envExc stEmpty "gpm" 2023 6 false none).st.transaction_log.map
        Txn.action) = ["start_download", "fail_download"]
    ∧ stEmpty.download_metrics.failures = 0
    ∧ (process cfgW envExc stEmpty "gpm" 2023 6 false none).st.download_metrics.failures
      = 0 := by
  refine ⟨by decide, by decide, by decide, by decide⟩

/-- C1 (amended): for a known dataset with no cache hit, every failure path of
`process` appends a `fail_download` transaction with a reason string and
returns `false` without letting the exception escape; the failures counter is
incremented by exactly one on the fetch-failure, validation-failure and
checksum-failure paths (all reached with a working clock), but is left
unchanged on the exception path (the handler omits the increment). -/
theorem process_failure_paths (cfg : List (String × DatasetCfg)) (env : PEnv)
    (st : PState) (dataset : String) (year month : Nat) (dry_run : Bool)
    (aws_bucket : Option String) (dcfg : DatasetCfg)
    (hknown : lookupA dataset cfg = some dcfg)
    (hnohit : hashHit (fileHashOf env st (outputPath dataset dcfg.fmt year month))
      st.cache = false) :
    (env.clockOk = false →
      (process cfg env st dataset year month dry_run aws_bucket).ret = false
      ∧ (process cfg env st dataset year month dry_run
          aws_bucket).st.download_metrics.failures = st.download_metrics.failures
      ∧ (process cfg env st dataset year month dry_run aws_bucket).st.transaction_log
        = st.transaction_log
          ++ [⟨"start_download",
                [("dataset", dataset), ("date", toString year ++ "-" ++ pad2 month)],
                env.now⟩,
              ⟨"fail_download",
                [("dataset", dataset),
                  ("reason", "NameError: name time is not defined")], env.now⟩])
    ∧ (env.clockOk = true →
      (process cfg env st dataset year month dry_run aws_bucket).ret = false →
      (process cfg env st dataset year month dry_run
          aws_bucket).st.download_metrics.failures = st.download_metrics.failures + 1
      ∧ ∃ mid, (process cfg env st dataset year month dry_run aws_bucket).st.transaction_log
        = st.transaction_log ++ mid
          ++ [⟨"fail_download",
                [("dataset", dataset),
                  ("reason", "download or validation failed")], env.now⟩]) := by
  constructor
  · intro hclockf
    have heq : process cfg env st dataset year month dry_run aws_bucket
        = ⟨false, log_transaction env.now (startState env st dataset year month)
            "fail_download"
            [("dataset", dataset), ("reason", "NameError: name time is not defined")],
          false, []⟩ := by
      simp [process, hknown, hnohit, hclockf]
    rw [heq]
    refine ⟨rfl, ?_, ?_⟩
    · simp [log_transaction, startState]
    · simp [log_transaction, startState]
  · intro hclockt hret
    rcases process_cases cfg env st dataset year month dry_run aws_bucket with
      ⟨hcfg, heq⟩ | ⟨dcfg2, hcfg, hhit, heq⟩ | ⟨dcfg2, hcfg, hhit, hclock, heq⟩
      | ⟨dcfg2, hcfg, hhit, hclock, hcond, heq⟩
      | ⟨dcfg2, hcfg, hhit, hclock, hcond, hval, heq⟩
      | ⟨dcfg2, hcfg, hhit, hclock, hcond, hval, hcs, heq⟩
      | ⟨dcfg2, h, hcfg, hhit, hclock, hcond, hval, hcs, hhe, heq⟩
    · rw [hknown] at hcfg; exact absurd hcfg (by simp)
    · have hd : dcfg2 = dcfg := by
        rw [hknown] at hcfg
        exact (Option.some.injEq _ _ ▸ hcfg.symm : _)
      rw [hd] at hhit
      rw [hnohit] at hhit
      exact absurd hhit (by simp)
    · rw [hclockt] at hclock; exact absurd hclock (by simp)
    · rw [heq]
      refine ⟨?_, ⟨[⟨"start_download",
          [("dataset", dataset), ("date", toString year ++ "-" ++ pad2 month)],
          env.now⟩], ?_⟩⟩
      · simp [failTail, log_transaction, fetchedState, startState]
      · simp [failTail, log_transaction, fetchedState, startState]
    · rw [heq]
      refine ⟨?_, ⟨[⟨"start_download",
          [("dataset", dataset), ("date", toString year ++ "-" ++ pad2 month)],
          env.now⟩,
        ⟨"rollback_download", [("dataset", dataset), ("reason", "validation failed")],
          env.now⟩], ?_⟩⟩
      · simp [failTail, log_transaction, fetchedState, startState]
      · simp [failTail, log_transaction, fetchedState, startState]
    · rw [heq]
      refine ⟨?_, ⟨[⟨"start_download",
          [("dataset", dataset), ("date", toString year ++ "-" ++ pad2 month)],
          env.now⟩,
        ⟨"rollback_download",
          [("dataset", dataset), ("reason", "hash computation failed")], env.now⟩], ?_⟩⟩
      · simp [failTail, log_transaction, fetchedState, startState]
      · simp [failTail, log_transaction, fetchedState, startState]
    · rw [heq] at hret
      exact absurd hret (by simp [successResult])

/-- Environment for the C1 witness: working clock, fetch strategy fails. -/
def envFail : PEnv := ⟨fun _ => none, true, 0, 0, "t4", FetchOutcome.fail⟩

/-- C1 witness: a concrete fetch failure increments the failures counter by one
and appends the `fail_download` record. -/
theorem process_failure_paths_witness :
    (lookupA "gpm" cfgW = some ⟨"hdf5", ["precipitationCal"]⟩
      ∧ hashHit (fileHashOf envFail stEmpty (outputPath "gpm" "hdf5" 2023 6))
          stEmpty.cache = false
      ∧ envFail.clockOk = true
      ∧ (process cfgW envFail stEmpty "gpm" 2023 6 false none).ret = false)
    ∧ ((process cfgW envFail stEmpty "gpm" 2023 6 false
          none).st.download_metrics.failures
        = stEmpty.download_metrics.failures + 1
      ∧ ∃ mid, (process cfgW envFail stEmpty "gpm" 2023 6 false none).st.transaction_log
        = stEmpty.transaction_log ++ mid
          ++ [⟨"fail_download",
                [("dataset", "gpm"),
                  ("reason", "download or validation failed")], envFail.now⟩]) :=
  ⟨⟨by decide, by decide, rfl, by decide⟩,
    (process_failure_paths cfgW envFail stEmpty "gpm" 2023 6 false none
        ⟨"hdf5", ["precipitationCal"]⟩ (by decide) (by decide)).2 rfl (by decide)⟩
